import Mathlib

/-!
Shallow embedding of the engine-simulator core (TypeScript sources under
`src/`) over the rationals, together with theorems checking the
natural-language specification against the code.

Conventions:
* TS `number` is modelled as `ℚ`; the floating constant `TWO_PI = 2*Math.PI`
  is embedded as the exact rational value of that double (it cancels in the
  round-trip conversions, so its exact value is irrelevant to the theorems).
* Stateful classes become state structures plus pure transition functions.
* `Math.exp` (used only in the turbo BOV audio envelope) is abstracted as a
  function parameter; every theorem proved here is independent of it.
-/

namespace EngineSim

/-- Drive type (`src/domain/types.ts`): `'fwd' | 'rwd' | 'awd'`. -/
inductive DriveType where
  | fwd
  | rwd
  | awd
deriving DecidableEq

/-- Transmission mode (`src/domain/types.ts`): `'manual' | 'automatic'`. -/
inductive TransmissionMode where
  | manual
  | automatic
deriving DecidableEq

/-- The fields of `EngineProfile` (`src/domain/types.ts`) used by the
simulation core; string/audio-only fields are omitted. `driveType` is
optional in the source (`driveType?: DriveType`). -/
structure EngineProfile where
  idleRPM : ℚ
  redlineRPM : ℚ
  peakTorqueRPM : ℚ
  peakPowerRPM : ℚ
  torqueCurve : List (ℚ × ℚ)
  gearRatios : List ℚ
  finalDrive : ℚ
  wheelRadius : ℚ
  driveType : Option DriveType
  vehicleMass : ℚ
  dragCoefficient : ℚ
  frontalArea : ℚ
  rollingResistance : ℚ
deriving DecidableEq

/-- `TWO_PI = 2 * Math.PI` from `src/domain/transmission.ts`, as the exact
rational value of the IEEE-754 double `2*Math.PI`. -/
def twoPi : ℚ := 884279719003555 / 2 ^ 47

/-- `maxGear` getter of `Transmission`: `this.profile.gearRatios.length`. -/
def maxGear (p : EngineProfile) : ℤ := p.gearRatios.length

/-- `Transmission.speedToRPM` (`src/domain/transmission.ts` lines 53-60):
`speed * ratio * finalDrive * 60 / (TWO_PI * wheelRadius)`, with idle RPM
returned for a gear outside `[1, maxGear]`. -/
def speedToRPM (p : EngineProfile) (speedMs : ℚ) (gear : ℤ) : ℚ :=
  if gear < 1 ∨ gear > maxGear p then p.idleRPM
  else
    let ratio := p.gearRatios.getD (gear - 1).toNat 0
    speedMs * ratio * p.finalDrive * 60 / (twoPi * p.wheelRadius)

/-- `Transmission.rpmToSpeed` (`src/domain/transmission.ts` lines 62-69):
`rpm * TWO_PI * wheelRadius / (ratio * finalDrive * 60)`, zero for a gear
outside `[1, maxGear]`. -/
def rpmToSpeed (p : EngineProfile) (rpm : ℚ) (gear : ℤ) : ℚ :=
  if gear < 1 ∨ gear > maxGear p then 0
  else
    let ratio := p.gearRatios.getD (gear - 1).toNat 0
    rpm * twoPi * p.wheelRadius / (ratio * p.finalDrive * 60)

/-- A sample profile, numbers taken from the end-to-end scenario of the
spec (idle 800, redline 7000, ratios [3, 2, 1], final drive 4, wheel 0.3 m). -/
def sampleProfile : EngineProfile where
  idleRPM := 800
  redlineRPM := 7000
  peakTorqueRPM := 4500
  peakPowerRPM := 6500
  torqueCurve := [(800, 120), (4500, 240), (7000, 200)]
  gearRatios := [3, 2, 1]
  finalDrive := 4
  wheelRadius := 3/10
  driveType := none
  vehicleMass := 1300
  dragCoefficient := 3/10
  frontalArea := 2
  rollingResistance := 1/100

theorem twoPi_pos : 0 < twoPi := by norm_num [twoPi]

/-- C1: For every gear `g` with `1 ≤ g ≤ maxGear` whose ratio is strictly
positive, and strictly positive final drive and wheel radius, the
conversion round-trip `speedToRPM (rpmToSpeed rpm g) g` returns `rpm`
exactly (over the rationals). -/
theorem speedToRPM_rpmToSpeed_roundtrip
    (p : EngineProfile) (g : ℤ) (rpm : ℚ)
    (hg1 : 1 ≤ g) (hg2 : g ≤ maxGear p)
    (hratio : 0 < p.gearRatios.getD (g - 1).toNat 0)
    (hfd : 0 < p.finalDrive) (hwr : 0 < p.wheelRadius) :
    speedToRPM p (rpmToSpeed p rpm g) g = rpm := by
  have hguard : ¬ (g < 1 ∨ g > maxGear p) := by
    push_neg
    exact ⟨by omega, by omega⟩
  unfold speedToRPM rpmToSpeed
  rw [if_neg hguard, if_neg hguard]
  have h2pi : twoPi ≠ 0 := ne_of_gt twoPi_pos
  have hr : p.gearRatios.getD (g - 1).toNat 0 ≠ 0 := ne_of_gt hratio
  have hgn : (g - 1).toNat = g.toNat - 1 := by omega
  have hr2 : p.gearRatios[g.toNat - 1]?.getD 0 ≠ 0 := by
    rw [← hgn]
    simpa [List.getD] using hr
  have hfd0 : p.finalDrive ≠ 0 := ne_of_gt hfd
  have hwr0 : p.wheelRadius ≠ 0 := ne_of_gt hwr
  field_simp
  ring

/-- Witness for C1 at the sample profile, gear 2, rpm 3000. -/
theorem speedToRPM_rpmToSpeed_roundtrip_witness :
    speedToRPM sampleProfile (rpmToSpeed sampleProfile 3000 2) 2 = 3000 :=
  speedToRPM_rpmToSpeed_roundtrip sampleProfile 2 3000
    (by decide) (by decide) (by norm_num [sampleProfile])
    (by norm_num [sampleProfile]) (by norm_num [sampleProfile])

/-! ### Transmission state machine (`src/domain/transmission.ts`) -/

/-- Constants at the top of `src/domain/transmission.ts` (milliseconds and
throttle fractions). -/
def MIN_SHIFT_DELAY_MS : ℚ := 800

def MIN_DOWNSHIFT_DELAY_MS : ℚ := 450

def KICKDOWN_SHIFT_DELAY_MS : ℚ := 280

def SHIFT_DURATION_MS : ℚ := 120

def KICKDOWN_THROTTLE : ℚ := 82/100

def LOW_THROTTLE : ℚ := 25/100

def MIN_THROTTLE_FOR_UPSHIFT : ℚ := 22/100

def MANUAL_OVERRIDE_DURATION_MS : ℚ := 2500

/-- Mutable fields of the `Transmission` class. -/
structure TransmissionState where
  gear : ℤ
  isShifting : Bool
  shiftTimer : ℚ
  lastShiftTime : ℚ
  mode : TransmissionMode
  manualOverrideUntil : ℚ
deriving DecidableEq

/-- Initial field values of a freshly constructed `Transmission`. -/
def TransmissionState.initial : TransmissionState where
  gear := 0
  isShifting := false
  shiftTimer := 0
  lastShiftTime := 0
  mode := TransmissionMode.automatic
  manualOverrideUntil := 0

/-- Private `doShift` (lines 160-165). -/
def doShift (s : TransmissionState) (newGear : ℤ) (now : ℚ) : TransmissionState :=
  { s with
    isShifting := true
    shiftTimer := SHIFT_DURATION_MS
    lastShiftTime := now
    gear := newGear }

/-- `Transmission.update(dt)` (lines 71-78): decrement the shift timer while
shifting and clear `isShifting` at zero. -/
def Transmission.update (s : TransmissionState) (dt : ℚ) : TransmissionState :=
  if s.isShifting then
    let t := s.shiftTimer - dt * 1000
    if t ≤ 0 then { s with shiftTimer := t, isShifting := false }
    else { s with shiftTimer := t }
  else s

/-- `Transmission.checkAutoShift(rpm, throttle, speedMs, now)`
(lines 84-129): kick-down, then downshift, then throttle-gated upshift. -/
def checkAutoShift (p : EngineProfile) (s : TransmissionState)
    (rpm throttle speedMs now : ℚ) : TransmissionState :=
  if s.mode ≠ TransmissionMode.automatic ∨ s.isShifting then s
  else if s.gear = 0 then s
  else if now < s.manualOverrideUntil then s
  else
    let timeSinceShift := now - s.lastShiftTime
    let isKickdown := throttle ≥ KICKDOWN_THROTTLE
    let minDelay :=
      if isKickdown then KICKDOWN_SHIFT_DELAY_MS
      else if throttle < LOW_THROTTLE then MIN_DOWNSHIFT_DELAY_MS
      else MIN_SHIFT_DELAY_MS
    if timeSinceShift < minDelay then s
    else
      let allowUpshift := throttle ≥ MIN_THROTTLE_FOR_UPSHIFT
      let upshiftRPM := p.peakPowerRPM * (6/10 + 35/100 * throttle)
      let downshiftBase :=
        if throttle < LOW_THROTTLE then 65/100
        else 45/100 + 35/100 * throttle
      let downshiftRPM := max (p.peakTorqueRPM * downshiftBase) (p.idleRPM * 3/2)
      let rpmInLowerGear :=
        if s.gear > 1 then speedToRPM p speedMs (s.gear - 1) else rpm
      let targetKickdownRPM := p.peakTorqueRPM * 1
      let safeRedline := p.redlineRPM * 98/100
      if isKickdown ∧ rpm < targetKickdownRPM ∧ s.gear > 1 ∧
          rpmInLowerGear ≤ safeRedline then
        doShift s (s.gear - 1) now
      else if rpm < downshiftRPM ∧ s.gear > 1 then
        doShift s (s.gear - 1) now
      else if allowUpshift ∧ rpm > upshiftRPM ∧ s.gear < maxGear p then
        doShift s (s.gear + 1) now
      else s

/-- `Transmission.shiftUp(now)` (lines 131-135). -/
def shiftUp (p : EngineProfile) (s : TransmissionState) (now : ℚ) : TransmissionState :=
  if s.isShifting ∨ s.gear ≥ maxGear p then s
  else if now - s.lastShiftTime < MIN_SHIFT_DELAY_MS then s
  else doShift s (s.gear + 1) now

/-- `Transmission.shiftDown(now, speedMs)` (lines 137-143). -/
def shiftDown (s : TransmissionState) (now speedMs : ℚ) : TransmissionState :=
  if s.isShifting ∨ s.gear ≤ 0 then s
  else if now - s.lastShiftTime < MIN_SHIFT_DELAY_MS then s
  else if s.gear = 1 ∧ speedMs ≥ 1 then s
  else doShift s (s.gear - 1) now

/-- Shift direction for `manualOverrideShift`. -/
inductive ShiftDirection where
  | up
  | down
deriving DecidableEq

/-- `Transmission.manualOverrideShift(direction, now)` (lines 146-158). -/
def manualOverrideShift (p : EngineProfile) (s : TransmissionState)
    (direction : ShiftDirection) (now : ℚ) : TransmissionState :=
  if s.isShifting then s
  else if now - s.lastShiftTime < MIN_SHIFT_DELAY_MS then s
  else if s.gear = 0 then s
  else
    let newGear :=
      match direction with
      | ShiftDirection.up => min (s.gear + 1) (maxGear p)
      | ShiftDirection.down => max (s.gear - 1) 1
    if newGear = s.gear then s
    else
      { doShift s newGear now with
        manualOverrideUntil := now + MANUAL_OVERRIDE_DURATION_MS }

/-- `Transmission.setProfile(profile)` (lines 46-51): only the state fields;
the new profile becomes the `p` argument of subsequent calls. -/
def setProfile (s : TransmissionState) : TransmissionState :=
  { s with gear := 0, isShifting := false, manualOverrideUntil := 0 }

/-- `Transmission.reset()` (lines 167-173). -/
def Transmission.reset (s : TransmissionState) : TransmissionState :=
  { s with
    gear := 0
    isShifting := false
    shiftTimer := 0
    lastShiftTime := 0
    manualOverrideUntil := 0 }

/-- C5: Whenever the throttle is below the upshift floor
(`MIN_THROTTLE_FOR_UPSHIFT = 0.22`), `checkAutoShift` never increases the
gear, for every profile, state, rpm, speed and timestamp. -/
theorem checkAutoShift_no_upshift_below_floor
    (p : EngineProfile) (s : TransmissionState) (rpm throttle speedMs now : ℚ)
    (hth : throttle < MIN_THROTTLE_FOR_UPSHIFT) :
    (checkAutoShift p s rpm throttle speedMs now).gear ≤ s.gear := by
  unfold checkAutoShift
  dsimp only
  split_ifs <;>
    first
      | omega
      | (simp only [doShift]; omega)
      | (rename_i hup
         exact absurd hup.1 (not_le.mpr hth))

/-- Witness for C5: a concrete call at throttle 0.1 leaves gear 2 unchanged. -/
theorem checkAutoShift_no_upshift_below_floor_witness :
    (checkAutoShift sampleProfile
        { TransmissionState.initial with gear := 2, lastShiftTime := 0 }
        6900 (1/10) 30 5000).gear ≤ 2 :=
  checkAutoShift_no_upshift_below_floor sampleProfile
    { TransmissionState.initial with gear := 2, lastShiftTime := 0 }
    6900 (1/10) 30 5000 (by norm_num [MIN_THROTTLE_FOR_UPSHIFT])

/-- C7: Every `Transmission` operation preserves the state invariant
`gear ∈ [0, maxGear]` (for `setProfile`, with respect to the new profile
`q`), and while `isShifting` is true every shift request (`checkAutoShift`,
`shiftUp`, `shiftDown`, `manualOverrideShift`) leaves the gear unchanged. -/
theorem transmission_ops_preserve_invariant
    (p q : EngineProfile) (s : TransmissionState)
    (dt rpm throttle speedMs now : ℚ) (d : ShiftDirection)
    (h0 : 0 ≤ s.gear) (h1 : s.gear ≤ maxGear p) :
    (0 ≤ (Transmission.update s dt).gear ∧
      (Transmission.update s dt).gear ≤ maxGear p) ∧
    (0 ≤ (checkAutoShift p s rpm throttle speedMs now).gear ∧
      (checkAutoShift p s rpm throttle speedMs now).gear ≤ maxGear p) ∧
    (0 ≤ (shiftUp p s now).gear ∧ (shiftUp p s now).gear ≤ maxGear p) ∧
    (0 ≤ (shiftDown s now speedMs).gear ∧
      (shiftDown s now speedMs).gear ≤ maxGear p) ∧
    (0 ≤ (manualOverrideShift p s d now).gear ∧
      (manualOverrideShift p s d now).gear ≤ maxGear p) ∧
    (0 ≤ (setProfile s).gear ∧ (setProfile s).gear ≤ maxGear q) ∧
    (0 ≤ (Transmission.reset s).gear ∧
      (Transmission.reset s).gear ≤ maxGear p) ∧
    (s.isShifting = true →
      (checkAutoShift p s rpm throttle speedMs now).gear = s.gear ∧
      (shiftUp p s now).gear = s.gear ∧
      (shiftDown s now speedMs).gear = s.gear ∧
      (manualOverrideShift p s d now).gear = s.gear) := by
  have hmaxp : (0:ℤ) ≤ maxGear p := Int.ofNat_nonneg _
  have hmaxq : (0:ℤ) ≤ maxGear q := Int.ofNat_nonneg _
  refine ⟨?_, ?_, ?_, ?_, ?_, ?_, ?_, ?_⟩
  · unfold Transmission.update
    dsimp only
    split_ifs <;> (try dsimp only) <;> omega
  · unfold checkAutoShift
    dsimp only
    split_ifs <;>
      first
        | omega
        | (rename_i h
           simp only [doShift]
           obtain ⟨-, -, hg, -⟩ := h
           omega)
        | (rename_i h
           simp only [doShift]
           obtain ⟨-, hg⟩ := h
           omega)
  · unfold shiftUp
    split_ifs with hA hB
    · omega
    · omega
    · obtain ⟨-, hg⟩ := not_or.mp hA
      simp only [doShift]
      omega
  · unfold shiftDown
    split_ifs with hA hB hC
    · omega
    · omega
    · omega
    · obtain ⟨-, hg⟩ := not_or.mp hA
      simp only [doShift]
      omega
  · cases d <;>
      (unfold manualOverrideShift
       dsimp only
       split_ifs with hA hB hC hD <;>
         first
           | omega
           | (simp only [doShift]
              omega))
  · simp only [setProfile]
    omega
  · simp only [Transmission.reset]
    omega
  · intro hshift
    refine ⟨?_, ?_, ?_, ?_⟩
    · unfold checkAutoShift
      rw [if_pos (Or.inr hshift)]
    · unfold shiftUp
      rw [if_pos (Or.inl hshift)]
    · unfold shiftDown
      rw [if_pos (Or.inl hshift)]
    · unfold manualOverrideShift
      rw [if_pos hshift]

/-- Witness for C7 at the sample profile, gear 2: the shift-timer update
keeps the gear within `[0, maxGear]`. -/
theorem transmission_ops_preserve_invariant_witness :
    0 ≤ (Transmission.update
          { TransmissionState.initial with gear := 2 } (1/100)).gear ∧
      (Transmission.update
          { TransmissionState.initial with gear := 2 } (1/100)).gear ≤
        maxGear sampleProfile :=
  (transmission_ops_preserve_invariant sampleProfile sampleProfile
      { TransmissionState.initial with gear := 2 }
      (1/100) 3000 (1/2) 20 5000 ShiftDirection.up
      (by decide) (by decide)).1

/-! ### Vehicle dynamics (`src/domain/vehicle-dynamics.ts`) -/

/-- `AIR_DENSITY = 1.225`. -/
def AIR_DENSITY : ℚ := 49/40

/-- `GRAVITY = 9.81`. -/
def GRAVITY : ℚ := 981/100

/-- `DRIVETRAIN_EFFICIENCY = 0.85`. -/
def DRIVETRAIN_EFFICIENCY : ℚ := 17/20

/-- `INERTIA_FACTORS = [0, 0.25, 0.15, 0.10, 0.08, 0.06, 0.05, 0.04, 0.035]`. -/
def INERTIA_FACTORS : List ℚ :=
  [0, 1/4, 3/20, 1/10, 2/25, 3/50, 1/20, 1/25, 7/200]

/-- `MU_TIRE = 1.2`. -/
def MU_TIRE : ℚ := 6/5

/-- `getDriveWheelFraction` (lines 11-19): `profile.driveType || 'rwd'`,
then awd ↦ 0.95, fwd ↦ 0.55, rwd/default ↦ 0.50. -/
def getDriveWheelFraction (p : EngineProfile) : ℚ :=
  match p.driveType.getD DriveType.rwd with
  | DriveType.awd => 19/20
  | DriveType.fwd => 11/20
  | DriveType.rwd => 1/2

/-- Mutable fields of `VehicleDynamics`. -/
structure DynState where
  speedMs : ℚ
  accelerationMs2 : ℚ
  wheelSlip : ℚ
deriving DecidableEq

/-- Initial `VehicleDynamics` state (all fields zero). -/
def DynState.initial : DynState := ⟨0, 0, 0⟩

/-- `VehicleDynamics.update(dt, torqueNm, gear, brake, isShifting)`
(lines 47-107): traction with grip limit and slip derating, brake force,
aerodynamic drag, rolling resistance, per-gear effective mass, then
semi-implicit Euler with a zero floor on speed. `INERTIA_FACTORS[gear] ?? 0.05`
is modelled as the list value for `0 ≤ gear < 9` and `0.05` otherwise. -/
def VehicleDynamics.update (p : EngineProfile) (st : DynState)
    (dt torqueNm : ℚ) (gear : ℤ) (brake : ℚ) (isShifting : Bool) : DynState :=
  let fTraction0 :=
    if isShifting = false ∧ 1 ≤ gear ∧ gear ≤ (p.gearRatios.length : ℤ) then
      torqueNm * p.gearRatios.getD (gear - 1).toNat 0 * p.finalDrive *
        DRIVETRAIN_EFFICIENCY / p.wheelRadius
    else 0
  let gripMax := MU_TIRE * p.vehicleMass * getDriveWheelFraction p * GRAVITY
  let slip :=
    if fTraction0 > gripMax ∧ fTraction0 > 0 then
      min 1 ((fTraction0 - gripMax) / gripMax)
    else 0
  let fTraction :=
    if fTraction0 > gripMax ∧ fTraction0 > 0 then gripMax * (1 - 3/10 * slip)
    else fTraction0
  let fBrake := brake * (p.vehicleMass * GRAVITY * (8/10))
  let fDrag :=
    1/2 * p.dragCoefficient * AIR_DENSITY * p.frontalArea *
      st.speedMs * st.speedMs
  let fRolling := p.rollingResistance * p.vehicleMass * GRAVITY
  let fNet := fTraction - fBrake - fDrag - fRolling
  let inertiaFactor :=
    if 0 ≤ gear ∧ gear < 9 then INERTIA_FACTORS.getD gear.toNat (1/20)
    else 1/20
  let mEffective := p.vehicleMass * (1 + inertiaFactor)
  let accel := fNet / mEffective
  { speedMs := max 0 (st.speedMs + accel * dt)
    accelerationMs2 := accel
    wheelSlip := slip }

/-- Repeated invocation of `VehicleDynamics.update` at constant inputs. -/
def dynIter (p : EngineProfile) (dt torqueNm : ℚ) (gear : ℤ) (brake : ℚ)
    (isShifting : Bool) (st : DynState) : ℕ → DynState
  | 0 => st
  | n + 1 =>
      VehicleDynamics.update p (dynIter p dt torqueNm gear brake isShifting st n)
        dt torqueNm gear brake isShifting

/-- Every entry of `INERTIA_FACTORS`, and the fallback `0.05`, is
nonnegative. -/
theorem inertia_getD_nonneg (k : ℕ) : 0 ≤ INERTIA_FACTORS.getD k (1/20) := by
  unfold INERTIA_FACTORS
  rcases k with _ | _ | _ | _ | _ | _ | _ | _ | _ | n <;>
    simp [List.getD] <;> norm_num

/-- One `VehicleDynamics.update` step with zero torque keeps a stationary
vehicle stationary (under nonnegative brake, dt and resistance
coefficients, positive mass). -/
theorem dyn_update_stationary_step
    (p : EngineProfile) (st : DynState) (dt : ℚ) (gear : ℤ) (brake : ℚ)
    (isShifting : Bool)
    (hbrake : 0 ≤ brake) (hdt : 0 ≤ dt) (hmass : 0 < p.vehicleMass)
    (hroll : 0 ≤ p.rollingResistance) (hst : st.speedMs = 0) :
    (VehicleDynamics.update p st dt 0 gear brake isShifting).speedMs = 0 := by
  unfold VehicleDynamics.update
  dsimp only
  rw [hst]
  have hgrav : (0:ℚ) < GRAVITY := by norm_num [GRAVITY]
  have hair : (0:ℚ) < AIR_DENSITY := by norm_num [AIR_DENSITY]
  have htr0 : (if isShifting = false ∧ 1 ≤ gear ∧ gear ≤ (p.gearRatios.length : ℤ)
      then (0:ℚ) * p.gearRatios.getD (gear - 1).toNat 0 * p.finalDrive *
        DRIVETRAIN_EFFICIENCY / p.wheelRadius
      else 0) = 0 := by
    split_ifs <;> ring
  rw [htr0]
  simp only [gt_iff_lt, lt_self_iff_false, and_false, if_false]
  have hinertia : 0 ≤ (if 0 ≤ gear ∧ gear < 9
      then INERTIA_FACTORS.getD gear.toNat (1/20) else 1/20) := by
    split_ifs
    · exact inertia_getD_nonneg _
    · norm_num
  have hmeff : 0 < p.vehicleMass * (1 + (if 0 ≤ gear ∧ gear < 9
      then INERTIA_FACTORS.getD gear.toNat (1/20) else 1/20)) := by
    apply mul_pos hmass
    linarith
  have hnet : (0:ℚ) - brake * (p.vehicleMass * GRAVITY * (8/10)) -
      1/2 * p.dragCoefficient * AIR_DENSITY * p.frontalArea * 0 * 0 -
      p.rollingResistance * p.vehicleMass * GRAVITY ≤ 0 := by
    have h1 : 0 ≤ brake * (p.vehicleMass * GRAVITY * (8/10)) := by positivity
    have h2 : 0 ≤ p.rollingResistance * p.vehicleMass * GRAVITY := by positivity
    nlinarith
  have haccel : ((0:ℚ) - brake * (p.vehicleMass * GRAVITY * (8/10)) -
      1/2 * p.dragCoefficient * AIR_DENSITY * p.frontalArea * 0 * 0 -
      p.rollingResistance * p.vehicleMass * GRAVITY) /
      (p.vehicleMass * (1 + (if 0 ≤ gear ∧ gear < 9
        then INERTIA_FACTORS.getD gear.toNat (1/20) else 1/20))) ≤ 0 :=
    div_nonpos_of_nonpos_of_nonneg hnet (le_of_lt hmeff)
  have hprod : ((0:ℚ) - brake * (p.vehicleMass * GRAVITY * (8/10)) -
      1/2 * p.dragCoefficient * AIR_DENSITY * p.frontalArea * 0 * 0 -
      p.rollingResistance * p.vehicleMass * GRAVITY) /
      (p.vehicleMass * (1 + (if 0 ≤ gear ∧ gear < 9
        then INERTIA_FACTORS.getD gear.toNat (1/20) else 1/20))) * dt ≤ 0 :=
    mul_nonpos_of_nonpos_of_nonneg haccel hdt
  rw [zero_add]
  exact max_eq_left hprod

/-- C6: (1) For every profile, state and input, the speed returned by
`VehicleDynamics.update` equals `max 0 (previousSpeed + acceleration·dt)`
and is nonnegative. (2) Repeated updates with zero engine torque (hence
zero traction force) on a stationary vehicle keep the speed exactly 0. -/
theorem vehicleDynamics_speed_floor :
    (∀ (p : EngineProfile) (st : DynState) (dt torqueNm : ℚ) (gear : ℤ)
        (brake : ℚ) (isShifting : Bool),
      (VehicleDynamics.update p st dt torqueNm gear brake isShifting).speedMs =
          max 0 (st.speedMs +
            (VehicleDynamics.update p st dt torqueNm gear brake isShifting).accelerationMs2 * dt) ∧
        0 ≤ (VehicleDynamics.update p st dt torqueNm gear brake isShifting).speedMs) ∧
    (∀ (p : EngineProfile) (st : DynState) (dt : ℚ) (gear : ℤ) (brake : ℚ)
        (isShifting : Bool) (n : ℕ),
      0 ≤ brake → 0 ≤ dt → 0 < p.vehicleMass → 0 ≤ p.rollingResistance →
      st.speedMs = 0 →
      (dynIter p dt 0 gear brake isShifting st n).speedMs = 0) := by
  constructor
  · intro p st dt torqueNm gear brake isShifting
    exact ⟨rfl, le_max_left _ _⟩
  · intro p st dt gear brake isShifting n hbrake hdt hmass hroll hst
    induction n with
    | zero => exact hst
    | succ k ih =>
        exact dyn_update_stationary_step p _ dt gear brake isShifting
          hbrake hdt hmass hroll ih

/-- Witness for C6: a stationary sample vehicle with zero torque and 0.5
brake stays stationary for 10 ticks of 1/60 s. -/
theorem vehicleDynamics_speed_floor_witness :
    (dynIter sampleProfile (1/60) 0 1 (1/2) false DynState.initial 10).speedMs = 0 :=
  vehicleDynamics_speed_floor.2 sampleProfile DynState.initial (1/60) 1 (1/2)
    false 10 (by norm_num) (by norm_num) (by norm_num [sampleProfile])
    (by norm_num [sampleProfile]) rfl

/-! ### Turbo model (`src/domain/turbo-model.ts`) -/

/-- `TurboConfig` (`src/domain/types.ts`). -/
structure TurboConfig where
  maxBoostBar : ℚ
  spoolTimeSec : ℚ
  boostThresholdRPM : ℚ
  hasBOV : Bool
deriving DecidableEq

/-- Mutable fields of the `TurboModel` class. -/
structure TurboInternal where
  boostActual : ℚ
  bovTriggered : Bool
  bovTime : ℚ
  prevThrottle : ℚ
deriving DecidableEq

/-- `TurboModel` state after construction / `reset()`. -/
def TurboInternal.initial : TurboInternal := ⟨0, false, 0, 0⟩

/-- The `TurboState` record returned by `TurboModel.update`. -/
structure TurboState where
  boostBar : ℚ
  bovActive : Bool
  bovEnvelope : ℚ
deriving DecidableEq

/-- Target boost (`turbo-model.ts` lines 27-35): zero below the threshold
RPM, otherwise `maxBoost · throttle · min(1, (rpm − threshold)/2000)`. -/
def boostTarget (c : TurboConfig) (rpm throttle : ℚ) : ℚ :=
  if rpm ≥ c.boostThresholdRPM then
    c.maxBoostBar * throttle * min 1 ((rpm - c.boostThresholdRPM) / 2000)
  else 0

/-- RPM-dependent first-order time constant (lines 37-41):
`max(spool · threshold / max(rpm, threshold), 0.01)`. -/
def effectiveTau (c : TurboConfig) (rpm : ℚ) : ℚ :=
  max (c.spoolTimeSec * (c.boostThresholdRPM / max rpm c.boostThresholdRPM)) (1/100)

/-- The first-order lag step (lines 43-45):
`boost + (target − boost)·(dt/effectiveTau)`. -/
def lagBoost (c : TurboConfig) (boostPrev rpm throttle dt : ℚ) : ℚ :=
  boostPrev + (boostTarget c rpm throttle - boostPrev) * (dt / effectiveTau c rpm)

/-- `TurboModel.update(rpm, throttle, dt)` (lines 24-78). `expf` abstracts
`Math.exp` in the BOV envelope (the only non-rational operation in the
method); no theorem below depends on its values. -/
def TurboModel.update (expf : ℚ → ℚ) (c : TurboConfig) (s : TurboInternal)
    (rpm throttle dt : ℚ) : TurboInternal × TurboState :=
  let boost1 := lagBoost c s.boostActual rpm throttle dt
  let fire := c.hasBOV = true ∧ throttle < 1/10 ∧ boost1 > 3/10 ∧
    s.prevThrottle > 3/10
  let trig1 := if fire then true else s.bovTriggered
  let time1 := if fire then 0 else s.bovTime
  let boost2 := if fire then boost1 * (1/2) else boost1
  let time2 := if trig1 then time1 + dt else time1
  let env := if trig1 then
      (if time2 < 1/100 then time2 / (1/100)
       else expf (-(time2 - 1/100) / (2/10)))
    else 0
  let clear := trig1 ∧ env < 1/100
  let trig2 := if clear then false else trig1
  let envOut := if clear then 0 else env
  (⟨boost2, trig2, time2, throttle⟩,
   ⟨max 0 boost2, trig2, envOut⟩)

/-- Iterated `TurboModel.update` at constant inputs. -/
def turboIter (expf : ℚ → ℚ) (c : TurboConfig) (rpm throttle dt : ℚ)
    (s : TurboInternal) : ℕ → TurboInternal
  | 0 => s
  | n + 1 =>
      (TurboModel.update expf c (turboIter expf c rpm throttle dt s n)
        rpm throttle dt).1

theorem effectiveTau_pos (c : TurboConfig) (rpm : ℚ) :
    0 < effectiveTau c rpm :=
  lt_of_lt_of_le (by norm_num) (le_max_right _ _)

/-- ε-N convergence from a geometric bound, over ℚ. -/
theorem abv_lt_of_geom_bound (E r : ℚ) (f : ℕ → ℚ)
    (hE : 0 ≤ E) (hr0 : 0 ≤ r) (hr1 : r < 1)
    (hf : ∀ n, |f n| ≤ E * r ^ n) (ε : ℚ) (hε : 0 < ε) :
    ∃ N : ℕ, ∀ n : ℕ, N ≤ n → |f n| < ε := by
  obtain ⟨N, hN⟩ := exists_pow_lt_of_lt_one
    (x := ε / (E + 1)) (by positivity) hr1
  refine ⟨N, fun n hn => ?_⟩
  have h1 : r ^ n ≤ r ^ N := pow_le_pow_of_le_one hr0 (le_of_lt hr1) hn
  have h2 : E * r ^ n ≤ E * r ^ N := by
    exact mul_le_mul_of_nonneg_left h1 hE
  have h3 : E * r ^ N ≤ (E + 1) * r ^ N := by
    have := pow_nonneg hr0 N
    nlinarith
  have h4 : (E + 1) * r ^ N < (E + 1) * (ε / (E + 1)) := by
    apply mul_lt_mul_of_pos_left hN
    positivity
  have h5 : (E + 1) * (ε / (E + 1)) = ε := by
    field_simp
  calc |f n| ≤ E * r ^ n := hf n
    _ ≤ E * r ^ N := h2
    _ ≤ (E + 1) * r ^ N := h3
    _ < (E + 1) * (ε / (E + 1)) := h4
    _ = ε := by rw [h5]

/-- At full throttle with `rpm ≥ threshold + 2000` the target is exactly
`maxBoostBar`. -/
theorem boostTarget_full (c : TurboConfig) (rpm : ℚ)
    (hrpm : c.boostThresholdRPM + 2000 ≤ rpm) :
    boostTarget c rpm 1 = c.maxBoostBar := by
  unfold boostTarget
  rw [if_pos (by linarith)]
  have hmin : min (1:ℚ) ((rpm - c.boostThresholdRPM) / 2000) = 1 := by
    apply min_eq_left
    rw [le_div_iff₀ (by norm_num)]
    linarith
  rw [hmin]
  ring

/-- Closed form of the full-throttle iteration from any starting state:
`boost_n − B = (boost_0 − B)·(1 − dt/τ)^n`. -/
theorem turboIter_full_closed (expf : ℚ → ℚ) (c : TurboConfig) (rpm dt : ℚ)
    (s : TurboInternal)
    (hrpm : c.boostThresholdRPM + 2000 ≤ rpm) (n : ℕ) :
    (turboIter expf c rpm 1 dt s n).boostActual - c.maxBoostBar =
      (s.boostActual - c.maxBoostBar) *
        (1 - dt / effectiveTau c rpm) ^ n := by
  induction n with
  | zero => simp [turboIter]
  | succ k ih =>
      have hfire : ¬ (c.hasBOV = true ∧ (1:ℚ) < 1/10 ∧
          lagBoost c (turboIter expf c rpm 1 dt s k).boostActual
            rpm 1 dt > 3/10 ∧
          (turboIter expf c rpm 1 dt s k).prevThrottle > 3/10) := by
        rintro ⟨-, h, -⟩
        norm_num at h
      show (TurboModel.update expf c _ rpm 1 dt).1.boostActual - _ = _
      unfold TurboModel.update
      dsimp only
      rw [if_neg hfire]
      rw [lagBoost, boostTarget_full c rpm hrpm]
      have hbk : (turboIter expf c rpm 1 dt s k).boostActual =
          c.maxBoostBar + (s.boostActual - c.maxBoostBar) *
            (1 - dt / effectiveTau c rpm) ^ k := by
        linarith [ih]
      rw [hbk]
      ring

/-- At zero throttle the target boost is zero. -/
theorem boostTarget_zero (c : TurboConfig) (rpm : ℚ) :
    boostTarget c rpm 0 = 0 := by
  unfold boostTarget
  split_ifs <;> ring

/-- Geometric decay of the zero-throttle iteration from any state: the BOV
halving can only shrink the magnitude further. -/
theorem turboIter_zero_decay (expf : ℚ → ℚ) (c : TurboConfig)
    (s : TurboInternal) (rpm dt : ℚ) (n : ℕ) :
    |(turboIter expf c rpm 0 dt s n).boostActual| ≤
      |s.boostActual| * |1 - dt / effectiveTau c rpm| ^ n := by
  induction n with
  | zero => simp [turboIter]
  | succ k ih =>
      set b := (turboIter expf c rpm 0 dt s k).boostActual with hb
      have hlag : lagBoost c b rpm 0 dt = b * (1 - dt / effectiveTau c rpm) := by
        rw [lagBoost, boostTarget_zero]
        ring
      have hstep : |(turboIter expf c rpm 0 dt s (k+1)).boostActual| ≤
          |b| * |1 - dt / effectiveTau c rpm| := by
        show |(TurboModel.update expf c _ rpm 0 dt).1.boostActual| ≤ _
        unfold TurboModel.update
        dsimp only
        rw [← hb, hlag]
        split_ifs with hfire
        · rw [abs_mul, abs_mul]
          have h2 : |(1:ℚ)/2| ≤ 1 := by
            rw [abs_of_pos] <;> norm_num
          nlinarith [abs_nonneg b,
            abs_nonneg (1 - dt / effectiveTau c rpm),
            mul_nonneg (abs_nonneg b)
              (abs_nonneg (1 - dt / effectiveTau c rpm))]
        · rw [abs_mul]
      calc |(turboIter expf c rpm 0 dt s (k+1)).boostActual| ≤
          |b| * |1 - dt / effectiveTau c rpm| := hstep
        _ ≤ |s.boostActual| * |1 - dt / effectiveTau c rpm| ^ k *
              |1 - dt / effectiveTau c rpm| :=
            mul_le_mul_of_nonneg_right ih (abs_nonneg _)
        _ = |s.boostActual| * |1 - dt / effectiveTau c rpm| ^ (k+1) := by
            ring

/-- `|max 0 b − B| ≤ |b − B|` for nonnegative `B`: clamping the boost
output at zero never moves it further from the target. -/
theorem abs_max_zero_sub_le (b B : ℚ) (hB : 0 ≤ B) :
    |max 0 b - B| ≤ |b - B| := by
  rcases le_total 0 b with h | h
  · rw [max_eq_right h]
  · rw [max_eq_left h, abs_of_nonpos (by linarith),
      abs_of_nonpos (by linarith)]
    linarith

/-- C2 (amended): for every fixed `dt` with `0 < dt < 2·effectiveTau` (the
stability region of the first-order lag step), (1) at constant
`throttle = 1` and `rpm ≥ threshold + 2000` (where the RPM ramp factor
saturates at 1) the boost output converges from any starting state to
within any ε of `maxBoostBar`; (2) at `throttle = 0` the boost output
converges from any state to within any ε of 0. -/
theorem turbo_boost_convergence :
    (∀ (expf : ℚ → ℚ) (c : TurboConfig) (s : TurboInternal) (rpm dt : ℚ),
      0 ≤ c.maxBoostBar →
      c.boostThresholdRPM + 2000 ≤ rpm →
      0 < dt → dt < 2 * effectiveTau c rpm →
      ∀ ε : ℚ, 0 < ε → ∃ N : ℕ, ∀ n : ℕ, N ≤ n →
        |max 0 (turboIter expf c rpm 1 dt s n).boostActual -
          c.maxBoostBar| < ε) ∧
    (∀ (expf : ℚ → ℚ) (c : TurboConfig) (s : TurboInternal) (rpm dt : ℚ),
      0 < dt → dt < 2 * effectiveTau c rpm →
      ∀ ε : ℚ, 0 < ε → ∃ N : ℕ, ∀ n : ℕ, N ≤ n →
        |max 0 (turboIter expf c rpm 0 dt s n).boostActual| < ε) := by
  constructor
  · intro expf c s rpm dt hB hrpm hdt hdt2 ε hε
    have htau := effectiveTau_pos c rpm
    have hk0 : 0 < dt / effectiveTau c rpm := div_pos hdt htau
    have hk2 : dt / effectiveTau c rpm < 2 := by
      rw [div_lt_iff₀ htau]
      linarith
    have hr1 : |1 - dt / effectiveTau c rpm| < 1 := by
      rw [abs_lt]
      constructor <;> linarith
    apply abv_lt_of_geom_bound |s.boostActual - c.maxBoostBar|
      |1 - dt / effectiveTau c rpm| _ (abs_nonneg _) (abs_nonneg _) hr1 _ ε hε
    intro n
    have hclosed := turboIter_full_closed expf c rpm dt s hrpm n
    calc |max 0 (turboIter expf c rpm 1 dt s n).boostActual - c.maxBoostBar| ≤
        |(turboIter expf c rpm 1 dt s n).boostActual - c.maxBoostBar| :=
          abs_max_zero_sub_le _ _ hB
      _ = |s.boostActual - c.maxBoostBar| *
            |1 - dt / effectiveTau c rpm| ^ n := by
          rw [hclosed, abs_mul, abs_pow]
  · intro expf c s rpm dt hdt hdt2 ε hε
    have htau := effectiveTau_pos c rpm
    have hk0 : 0 < dt / effectiveTau c rpm := div_pos hdt htau
    have hk2 : dt / effectiveTau c rpm < 2 := by
      rw [div_lt_iff₀ htau]
      linarith
    have hr1 : |1 - dt / effectiveTau c rpm| < 1 := by
      rw [abs_lt]
      constructor <;> linarith
    apply abv_lt_of_geom_bound |s.boostActual|
      |1 - dt / effectiveTau c rpm| _ (abs_nonneg _) (abs_nonneg _) hr1 _ ε hε
    intro n
    have hdecay := turboIter_zero_decay expf c s rpm dt n
    have habs : |max 0 (turboIter expf c rpm 0 dt s n).boostActual| ≤
        |(turboIter expf c rpm 0 dt s n).boostActual| := by
      rcases le_total 0 (turboIter expf c rpm 0 dt s n).boostActual with h | h
      · rw [max_eq_right h]
      · rw [max_eq_left h]
        simp
    exact le_trans habs hdecay

/-- Witness for C2 (amended): convergence at the concrete config
(B = 1 bar, spool 0.1 s, threshold 3000 RPM), rpm 5000, dt = 1/100. -/
theorem turbo_boost_convergence_witness :
    ∃ N : ℕ, ∀ n : ℕ, N ≤ n →
      |max 0 (turboIter (fun _ => 0) ⟨1, 1/10, 3000, false⟩ 5000 1 (1/100)
          TurboInternal.initial n).boostActual - 1| < 1/1000 :=
  turbo_boost_convergence.1 (fun _ => 0) ⟨1, 1/10, 3000, false⟩
    TurboInternal.initial 5000 (1/100)
    (by norm_num) (by norm_num) (by norm_num)
    (by norm_num [effectiveTau, max_def]) (1/1000) (by norm_num)

/-- In the counterexample run (threshold 3000, rpm 3001, full throttle,
dt = 1/100), boost stays below the target `1/2000` forever. -/
theorem turboIter_counterexample_bound (n : ℕ) :
    0 ≤ (turboIter (fun _ => 0) ⟨1, 1/10, 3000, false⟩ 3001 1 (1/100)
        TurboInternal.initial n).boostActual ∧
      (turboIter (fun _ => 0) ⟨1, 1/10, 3000, false⟩ 3001 1 (1/100)
        TurboInternal.initial n).boostActual ≤ 1/2000 := by
  induction n with
  | zero => simp [turboIter, TurboInternal.initial]
  | succ k ih =>
      obtain ⟨ih0, ih1⟩ := ih
      have hfire : ¬ ((⟨1, 1/10, 3000, false⟩ : TurboConfig).hasBOV = true ∧
          (1:ℚ) < 1/10 ∧
          lagBoost ⟨1, 1/10, 3000, false⟩
            (turboIter (fun _ => 0) ⟨1, 1/10, 3000, false⟩ 3001 1 (1/100)
              TurboInternal.initial k).boostActual 3001 1 (1/100) > 3/10 ∧
          (turboIter (fun _ => 0) ⟨1, 1/10, 3000, false⟩ 3001 1 (1/100)
            TurboInternal.initial k).prevThrottle > 3/10) := by
        rintro ⟨-, h, -⟩
        norm_num at h
      have hstep : (turboIter (fun _ => 0) ⟨1, 1/10, 3000, false⟩ 3001 1 (1/100)
          TurboInternal.initial (k+1)).boostActual =
          lagBoost ⟨1, 1/10, 3000, false⟩
            (turboIter (fun _ => 0) ⟨1, 1/10, 3000, false⟩ 3001 1 (1/100)
              TurboInternal.initial k).boostActual 3001 1 (1/100) := by
        show (TurboModel.update _ _ _ _ _ _).1.boostActual = _
        unfold TurboModel.update
        dsimp only
        rw [if_neg hfire]
      have htgt : boostTarget ⟨1, 1/10, 3000, false⟩ 3001 1 = 1/2000 := by
        unfold boostTarget
        norm_num [min_def]
      have heff : effectiveTau ⟨1, 1/10, 3000, false⟩ 3001 = 300/3001 := by
        unfold effectiveTau
        norm_num [max_def]
      rw [hstep, lagBoost, htgt, heff]
      have hquot : ((1:ℚ)/100) / (300/3001) = 3001/30000 := by norm_num
      rw [hquot]
      constructor <;> linarith

/-- C2 counterexample: at threshold RPM 3000 and `rpm = 3001 > threshold`,
full throttle, `dt = 1/100`, the boost never comes within ε = 1/2 of
`maxBoostBar = 1` (it converges to `1/2000` instead), refuting the claim
for `rpm` just above the threshold. -/
theorem turbo_convergence_counterexample :
    ¬ (∀ ε : ℚ, 0 < ε → ∃ N : ℕ, ∀ n : ℕ, N ≤ n →
      |max 0 (turboIter (fun _ => 0) ⟨1, 1/10, 3000, false⟩ 3001 1 (1/100)
          TurboInternal.initial n).boostActual - 1| < ε) := by
  intro h
  obtain ⟨N, hN⟩ := h (1/2) (by norm_num)
  have hb := turboIter_counterexample_bound N
  have := hN N le_rfl
  rw [max_eq_right hb.1] at this
  rw [abs_of_nonpos (by linarith [hb.2])] at this
  linarith [hb.2]

/-- C4: (1) On any call, the stored boost after `TurboModel.update` is the
first-order-lag value halved exactly when the blow-off condition holds
(`hasBOV`, throttle < 0.1, lagged boost > 0.3 bar, previous call's throttle
> 0.3), and the lag value unchanged otherwise. (2) Edge-triggering: if a
call is made with throttle < 0.1, the next call can never halve the boost
again (its `prevThrottle` is below 0.3), whatever its inputs — so the
event fires at most once per lift-off. -/
theorem turbo_bov_edge_trigger :
    (∀ (expf : ℚ → ℚ) (c : TurboConfig) (s : TurboInternal)
        (rpm throttle dt : ℚ),
      (TurboModel.update expf c s rpm throttle dt).1.boostActual =
        if c.hasBOV = true ∧ throttle < 1/10 ∧
            lagBoost c s.boostActual rpm throttle dt > 3/10 ∧
            s.prevThrottle > 3/10
        then lagBoost c s.boostActual rpm throttle dt * (1/2)
        else lagBoost c s.boostActual rpm throttle dt) ∧
    (∀ (expf : ℚ → ℚ) (c : TurboConfig) (s : TurboInternal)
        (rpm throttle dt rpm2 throttle2 dt2 : ℚ),
      throttle < 1/10 →
      (TurboModel.update expf c (TurboModel.update expf c s rpm throttle dt).1
          rpm2 throttle2 dt2).1.boostActual =
        lagBoost c (TurboModel.update expf c s rpm throttle dt).1.boostActual
          rpm2 throttle2 dt2) := by
  constructor
  · intro expf c s rpm throttle dt
    rfl
  · intro expf c s rpm throttle dt rpm2 throttle2 dt2 hth
    show (TurboModel.update expf c _ rpm2 throttle2 dt2).1.boostActual = _
    unfold TurboModel.update
    dsimp only
    rw [if_neg]
    rintro ⟨-, -, -, h4⟩
    linarith

/-- Witness for C4: second call after a lift-off call (throttle 0) does not
halve — its boost equals the plain lag value. -/
theorem turbo_bov_edge_trigger_witness :
    (TurboModel.update (fun _ => 0) ⟨1, 1/10, 3000, true⟩
        (TurboModel.update (fun _ => 0) ⟨1, 1/10, 3000, true⟩ ⟨1, false, 0, 1⟩
          5000 0 (1/100)).1 5000 0 (1/100)).1.boostActual =
      lagBoost ⟨1, 1/10, 3000, true⟩
        (TurboModel.update (fun _ => 0) ⟨1, 1/10, 3000, true⟩ ⟨1, false, 0, 1⟩
          5000 0 (1/100)).1.boostActual 5000 0 (1/100) :=
  turbo_bov_edge_trigger.2 (fun _ => 0) ⟨1, 1/10, 3000, true⟩ ⟨1, false, 0, 1⟩
    5000 0 (1/100) 5000 0 (1/100) (by norm_num)

/-! ### Engine model (`src/domain/engine-model.ts`) -/

/-- The scan loop of `interpolateTorque` (lines 13-21): find the first
segment `[rpmLow, rpmHigh]` containing `rpm` and interpolate linearly;
fall through to the last point's torque. -/
def interpLoop (rpm : ℚ) : List (ℚ × ℚ) → ℚ
  | lo :: hi :: rest =>
      if rpm ≥ lo.1 ∧ rpm ≤ hi.1 then
        lo.2 + (rpm - lo.1) / (hi.1 - lo.1) * (hi.2 - lo.2)
      else interpLoop rpm (hi :: rest)
  | [p] => p.2
  | [] => 0

/-- `interpolateTorque(rpm, torqueCurve)` (lines 3-22): 0 for an empty
curve, clamped to the first/last point outside the curve's RPM range,
linear interpolation inside. -/
def interpolateTorque (rpm : ℚ) (curve : List (ℚ × ℚ)) : ℚ :=
  match curve with
  | [] => 0
  | c0 :: rest =>
      if rpm ≤ c0.1 then c0.2
      else if rpm ≥ ((c0 :: rest).getLast (List.cons_ne_nil c0 rest)).1 then
        ((c0 :: rest).getLast (List.cons_ne_nil c0 rest)).2
      else interpLoop rpm (c0 :: rest)

theorem interpLoop_cons2 (rpm : ℚ) (lo hi : ℚ × ℚ) (rest : List (ℚ × ℚ)) :
    interpLoop rpm (lo :: hi :: rest) =
      if rpm ≥ lo.1 ∧ rpm ≤ hi.1 then
        lo.2 + (rpm - lo.1) / (hi.1 - lo.1) * (hi.2 - lo.2)
      else interpLoop rpm (hi :: rest) := rfl

/-- The scan loop returns the linear interpolation of the consecutive pair
whose RPM interval contains `rpm`. -/
theorem interpLoop_spec (rpm : ℚ) :
    ∀ (l : List (ℚ × ℚ)) (i : ℕ) (p q : ℚ × ℚ),
      List.Pairwise (fun a b : ℚ × ℚ => a.1 < b.1) l →
      l[i]? = some p → l[i+1]? = some q →
      p.1 ≤ rpm → rpm ≤ q.1 →
      interpLoop rpm l = p.2 + (rpm - p.1) / (q.1 - p.1) * (q.2 - p.2) := by
  intro l
  induction l with
  | nil =>
      intro i p q _ hp _ _ _
      simp at hp
  | cons lo tail ih =>
      intro i p q hpw hp hq hlo hhi
      cases tail with
      | nil =>
          rcases i with _ | j <;> simp at hq
      | cons hi rest =>
          cases i with
          | zero =>
              simp only [List.getElem?_cons_succ, List.getElem?_cons_zero,
                Option.some_inj] at hp hq
              subst hp
              subst hq
              rw [interpLoop_cons2, if_pos ⟨hlo, hhi⟩]
          | succ k =>
              have hpw2 : List.Pairwise (fun a b : ℚ × ℚ => a.1 < b.1)
                  (hi :: rest) := hpw.of_cons
              simp only [List.getElem?_cons_succ] at hp hq
              by_cases hcond : rpm ≥ lo.1 ∧ rpm ≤ hi.1
              · have hk0 : k = 0 ∧ hi = p := by
                  cases k with
                  | zero =>
                      simp only [List.getElem?_cons_zero, Option.some_inj] at hp
                      exact ⟨rfl, hp⟩
                  | succ m =>
                      exfalso
                      simp only [List.getElem?_cons_succ] at hp
                      have hpmem : p ∈ rest := by
                        obtain ⟨hm, hgm⟩ := List.getElem?_eq_some_iff.mp hp
                        exact hgm ▸ List.getElem_mem hm
                      have hlt : hi.1 < p.1 :=
                        (List.pairwise_cons.mp hpw2).1 p hpmem
                      linarith [hcond.2]
                obtain ⟨hk, hpeq⟩ := hk0
                subst hk
                subst hpeq
                have hrpm : rpm = hi.1 := le_antisymm hcond.2 hlo
                have hlt : lo.1 < hi.1 :=
                  (List.pairwise_cons.mp hpw).1 hi (by simp)
                have hne : hi.1 - lo.1 ≠ 0 := by
                  intro h
                  apply absurd hlt
                  push_neg
                  linarith [sub_eq_zero.mp h]
                rw [interpLoop_cons2, if_pos hcond, hrpm, div_self hne]
                ring
              · rw [interpLoop_cons2, if_neg hcond]
                exact ih k p q hpw2 hp
                  (by rw [List.getElem?_cons_succ]; exact hq) hlo hhi

/-- The scan loop's value always lies between two of the curve's torque
values. -/
theorem interpLoop_bounds (rpm : ℚ) :
    ∀ (l : List (ℚ × ℚ)),
      l ≠ [] →
      List.Pairwise (fun a b : ℚ × ℚ => a.1 < b.1) l →
      ∃ a ∈ l, ∃ b ∈ l, a.2 ≤ interpLoop rpm l ∧ interpLoop rpm l ≤ b.2 := by
  intro l
  induction l with
  | nil => intro h; exact absurd rfl h
  | cons lo tail ih =>
      intro _ hpw
      cases tail with
      | nil =>
          exact ⟨lo, by simp, lo, by simp, le_refl _, le_refl _⟩
      | cons hi rest =>
          by_cases hcond : rpm ≥ lo.1 ∧ rpm ≤ hi.1
          · have hlt : lo.1 < hi.1 :=
              (List.pairwise_cons.mp hpw).1 hi (by simp)
            have ht0 : 0 ≤ (rpm - lo.1) / (hi.1 - lo.1) :=
              div_nonneg (by linarith [hcond.1]) (by linarith)
            have ht1 : (rpm - lo.1) / (hi.1 - lo.1) ≤ 1 := by
              rw [div_le_one (by linarith)]
              linarith [hcond.2]
            rw [interpLoop_cons2, if_pos hcond]
            rcases le_total lo.2 hi.2 with hc | hc
            · refine ⟨lo, by simp, hi, by simp, ?_, ?_⟩ <;> nlinarith
            · refine ⟨hi, by simp, lo, by simp, ?_, ?_⟩ <;> nlinarith
          · rw [interpLoop_cons2, if_neg hcond]
            obtain ⟨a, ha, b, hb, h1, h2⟩ :=
              ih (by simp) hpw.of_cons
            exact ⟨a, List.mem_cons_of_mem lo ha, b,
              List.mem_cons_of_mem lo hb, h1, h2⟩

/-- C10: for a nonempty torque curve with strictly increasing RPM values,
`interpolateTorque` (1) clamps to the first point's torque at or below the
first RPM, (2) clamps to the last point's torque at or above the last RPM,
(3) returns the exact linear interpolation on each consecutive segment
containing `rpm`, and (4) always returns a value lying between two of the
curve's torque values (hence between their minimum and maximum). -/
theorem interpolateTorque_correct (curve : List (ℚ × ℚ)) (rpm : ℚ)
    (hne : curve ≠ [])
    (hpw : List.Pairwise (fun a b : ℚ × ℚ => a.1 < b.1) curve) :
    (rpm ≤ (curve.head hne).1 →
      interpolateTorque rpm curve = (curve.head hne).2) ∧
    ((curve.getLast hne).1 ≤ rpm →
      interpolateTorque rpm curve = (curve.getLast hne).2) ∧
    (∀ (i : ℕ) (p q : ℚ × ℚ), curve[i]? = some p → curve[i+1]? = some q →
      p.1 ≤ rpm → rpm ≤ q.1 →
      interpolateTorque rpm curve =
        p.2 + (rpm - p.1) / (q.1 - p.1) * (q.2 - p.2)) ∧
    (∃ a ∈ curve, ∃ b ∈ curve, a.2 ≤ interpolateTorque rpm curve ∧
      interpolateTorque rpm curve ≤ b.2) := by
  obtain ⟨c0, rest, rfl⟩ : ∃ c0 rest, curve = c0 :: rest := by
    cases curve with
    | nil => exact absurd rfl hne
    | cons a l => exact ⟨a, l, rfl⟩
  have hiteq : interpolateTorque rpm (c0 :: rest) =
      if rpm ≤ c0.1 then c0.2
      else if rpm ≥ ((c0 :: rest).getLast (List.cons_ne_nil c0 rest)).1 then
        ((c0 :: rest).getLast (List.cons_ne_nil c0 rest)).2
      else interpLoop rpm (c0 :: rest) := rfl
  have hhead : (c0 :: rest).head hne = c0 := rfl
  have hlastmem : (c0 :: rest).getLast (List.cons_ne_nil c0 rest) ∈ c0 :: rest :=
    List.getLast_mem _
  refine ⟨?_, ?_, ?_, ?_⟩
  · intro hA
    rw [hhead] at hA ⊢
    rw [hiteq, if_pos hA]
  · intro hB
    rw [hiteq]
    split_ifs with hA
    · -- rpm ≤ c0.1 and last.1 ≤ rpm: forces last = c0
      cases rest with
      | nil => rfl
      | cons c1 rest2 =>
          exfalso
          have hl : (c0 :: c1 :: rest2).getLast (List.cons_ne_nil _ _) ∈
              c1 :: rest2 := by
            rw [List.getLast_cons (List.cons_ne_nil c1 rest2)]
            exact List.getLast_mem _
          have : c0.1 < ((c0 :: c1 :: rest2).getLast
              (List.cons_ne_nil _ _)).1 :=
            (List.pairwise_cons.mp hpw).1 _ hl
          linarith
    · rfl
  · intro i p q hp hq hplo hqhi
    obtain ⟨hilen, hip⟩ := List.getElem?_eq_some_iff.mp hp
    obtain ⟨hjlen, hjq⟩ := List.getElem?_eq_some_iff.mp hq
    have hadj : p.1 < q.1 := by
      have h := (List.pairwise_iff_getElem.mp hpw) i (i+1) hilen hjlen
        (by omega)
      rw [hip, hjq] at h
      exact h
    rw [hiteq]
    split_ifs with hA hB
    · -- rpm at/below the first point: only possible at i = 0, rpm = c0.1
      rcases Nat.eq_zero_or_pos i with hi0 | hipos
      · subst hi0
        have hpc0 : p = c0 := by
          rw [List.getElem_cons_zero] at hip
          exact hip.symm
        subst hpc0
        have hrpm : rpm = p.1 := le_antisymm hA hplo
        rw [hrpm, sub_self, zero_div, zero_mul, add_zero]
      · exfalso
        have h := (List.pairwise_iff_getElem.mp hpw) 0 i (by omega) hilen hipos
        rw [hip, List.getElem_cons_zero] at h
        linarith
    · -- rpm at/above the last point: only possible at i+1 = length-1
      have hlen1 : (c0 :: rest).length - 1 < (c0 :: rest).length := by
        simp
      rcases eq_or_lt_of_le (show i + 1 ≤ (c0 :: rest).length - 1 by omega)
        with hie | hilt
      · have hqlast : q = (c0 :: rest).getLast (List.cons_ne_nil c0 rest) := by
          rw [List.getLast_eq_getElem]
          rw [← hjq]
          congr 1
        have hrpm : rpm = q.1 := by
          rw [hqlast]
          exact le_antisymm (hqlast ▸ hqhi) hB
        have hne2 : q.1 - p.1 ≠ 0 := by
          intro h
          apply absurd hadj
          push_neg
          linarith [sub_eq_zero.mp h]
        rw [← hqlast, hrpm, div_self hne2]
        ring
      · exfalso
        have h := (List.pairwise_iff_getElem.mp hpw) (i+1)
          ((c0 :: rest).length - 1) hjlen hlen1 (by omega)
        rw [hjq, ← List.getLast_eq_getElem] at h
        linarith
    · exact interpLoop_spec rpm (c0 :: rest) i p q hpw hp hq hplo hqhi
  · rw [hiteq]
    split_ifs with hA hB
    · exact ⟨c0, by simp, c0, by simp, le_refl _, le_refl _⟩
    · exact ⟨_, hlastmem, _, hlastmem, le_refl _, le_refl _⟩
    · exact interpLoop_bounds rpm (c0 :: rest) (List.cons_ne_nil c0 rest) hpw

/-- Witness for C10 at the sample profile's torque curve, rpm 2650
(midpoint of the first segment). -/
theorem interpolateTorque_correct_witness :
    interpolateTorque 2650 sampleProfile.torqueCurve = 180 := by
  have h := (interpolateTorque_correct sampleProfile.torqueCurve 2650
    (by simp [sampleProfile])
    (by norm_num [sampleProfile, List.pairwise_cons])).2.2.1 0 (800, 120)
    (4500, 240) (by simp [sampleProfile]) (by simp [sampleProfile])
    (by norm_num) (by norm_num)
  rw [h]
  norm_num

/-- `REV_LIMITER_CUT_FREQ = 15` Hz (`engine-model.ts` line 47). -/
def REV_LIMITER_CUT_FREQ : ℚ := 15

/-- Result record of `applyRevLimiter`. -/
structure RevLimiterResult where
  torqueMultiplier : ℚ
  newPhase : ℚ
  popTriggered : Bool
deriving DecidableEq

/-- JS `x % 1.0` (remainder, truncated toward zero). -/
def jsMod1 (x : ℚ) : ℚ := if 0 ≤ x then x - ⌊x⌋ else x - ⌈x⌉

/-- `applyRevLimiter(rpm, profile, phase, dt)` (`engine-model.ts`
lines 55-73): full torque below `redline − 100`; otherwise a 15 Hz phase
oscillator with 50% duty cycle alternating multiplier 0.05 (cut) / 0.7
(burn), and a pop trigger on each rising edge of the cut phase. -/
def applyRevLimiter (p : EngineProfile) (rpm phase dt : ℚ) : RevLimiterResult :=
  if rpm < p.redlineRPM - 100 then ⟨1, 0, false⟩
  else
    let newPhase := jsMod1 (phase + dt * REV_LIMITER_CUT_FREQ)
    let cutting := newPhase < 1/2
    ⟨if cutting then 1/20 else 7/10, newPhase,
     if cutting ∧ phase ≥ 1/2 then true else false⟩

/-- Results of `n` consecutive `applyRevLimiter` calls with the phase
threaded from each call to the next (as the engine loop does). -/
def revLimiterTrace (p : EngineProfile) (rpm dt phase : ℚ) :
    ℕ → List RevLimiterResult
  | 0 => []
  | n + 1 =>
      applyRevLimiter p rpm phase dt ::
        revLimiterTrace p rpm dt (applyRevLimiter p rpm phase dt).newPhase n

set_option maxHeartbeats 3200000 in
/-- C3: (1) For every profile, phase and dt, any call with
`rpm < redlineRPM − 100` returns torque multiplier 1 (and no pop).
(2) Held at `rpm = redlineRPM` for 1 second (60 calls of dt = 1/60 s,
phase starting at 0), the 60 multipliers alternate between the cut value
1/20 and the burn value 7/10 with 30 calls each (50% duty at 15 Hz), and
exactly 15 = ⌊1 s · 15 Hz⌋ calls report a pop trigger. -/
theorem applyRevLimiter_spec :
    (∀ (p : EngineProfile) (rpm phase dt : ℚ),
      rpm < p.redlineRPM - 100 →
      applyRevLimiter p rpm phase dt = ⟨1, 0, false⟩) ∧
    ((revLimiterTrace sampleProfile 7000 (1/60) 0 60).length = 60 ∧
      (revLimiterTrace sampleProfile 7000 (1/60) 0 60).countP
        (fun r => r.popTriggered) = 15 ∧
      (revLimiterTrace sampleProfile 7000 (1/60) 0 60).countP
        (fun r => decide (r.torqueMultiplier = 1/20)) = 30 ∧
      (revLimiterTrace sampleProfile 7000 (1/60) 0 60).countP
        (fun r => decide (r.torqueMultiplier = 7/10)) = 30) := by
  constructor
  · intro p rpm phase dt h
    unfold applyRevLimiter
    rw [if_pos h]
  · refine ⟨?_, ?_, ?_, ?_⟩ <;>
      norm_num [revLimiterTrace, applyRevLimiter, jsMod1, sampleProfile,
        REV_LIMITER_CUT_FREQ, List.countP, List.countP.go]

/-- Witness for C3: a call at 3000 RPM (far below redline 7000) returns
multiplier 1. -/
theorem applyRevLimiter_spec_witness :
    applyRevLimiter sampleProfile 3000 (1/4) (1/60) = ⟨1, 0, false⟩ :=
  applyRevLimiter_spec.1 sampleProfile 3000 (1/4) (1/60)
    (by norm_num [sampleProfile])

/-! ### Profile loading (`src/data/profile-loader.ts`) -/

/-- Well-formedness required of a profile by the simulation core (spec §6):
strictly increasing torque-curve RPM values and a non-empty gear list. -/
def wellFormedProfile (p : EngineProfile) : Prop :=
  List.Pairwise (fun a b : ℚ × ℚ => a.1 < b.1) p.torqueCurve ∧
  p.gearRatios ≠ []

/-- The loader's entire per-profile load-time processing
(`profile-loader.ts` lines 30-65): each imported JSON value is cast
`as EngineProfile` and placed into `profileGroups` unchanged. The cast is
the identity — the file contains no validation code, so loading can never
reject a value. -/
def loadProfile (p : EngineProfile) : Except String EngineProfile :=
  Except.ok p

/-- A malformed profile: torque-curve RPMs not increasing and an empty
gear list. -/
def malformedProfile : EngineProfile where
  idleRPM := 800
  redlineRPM := 7000
  peakTorqueRPM := 4500
  peakPowerRPM := 6500
  torqueCurve := [(3000, 200), (1000, 100)]
  gearRatios := []
  finalDrive := 4
  wheelRadius := 3/10
  driveType := none
  vehicleMass := 1300
  dragCoefficient := 3/10
  frontalArea := 2
  rollingResistance := 1/100

/-- C8 counterexample: the loader accepts a profile with a non-monotonic
torque curve and an empty gear-ratio list, returning it unchanged instead
of rejecting it — contradicting the claim that malformed profiles fail
fast at load time. -/
theorem profile_load_no_rejection :
    loadProfile malformedProfile = Except.ok malformedProfile ∧
      ¬ wellFormedProfile malformedProfile := by
  refine ⟨rfl, ?_⟩
  rintro ⟨-, h⟩
  exact h rfl

/-- C8 (amended): the loader performs no validation at load time — every
profile value, well-formed or not, is passed through to the simulation
core unchanged and no rejection path exists. -/
theorem profile_load_accepts_everything (p : EngineProfile) :
    loadProfile p = Except.ok p := rfl

/-! ### Audio worklet synthesizer (`EngineWorkletProcessor`) -/

/-- `SLOW_RANDOM_ALPHA = 0.0003` (worklet line 29). -/
def SLOW_RANDOM_ALPHA : ℚ := 3/10000

/-- `NOISE_FREQ = 0.002` (worklet line 31). -/
def NOISE_FREQ : ℚ := 2/1000

/-- `updateSlowRandom` (worklet lines 171-175), with the `Math.random()`
draw `white ∈ [−1, 1)` passed as a parameter:
`x ← x + SLOW_RANDOM_ALPHA · (white − x)`. -/
def updateSlowRandom (x white : ℚ) : ℚ :=
  x + SLOW_RANDOM_ALPHA * (white - x)

/-- Per-sample phase step of harmonic `h` (worklet lines 146-152): add
`h·(rpm/60)·(1 + NOISE_FREQ·jitter)/sampleRate`; if the accumulator
reaches 1, subtract `Math.floor` of it. -/
def phaseStep (sr rpm jitter : ℚ) (h : ℕ) (phase : ℚ) : ℚ :=
  let p1 := phase + (h * (rpm / 60) * (1 + NOISE_FREQ * jitter)) / sr
  if p1 ≥ 1 then p1 - ⌊p1⌋ else p1

/-- C9: (1) the slow random walk stays in `[−1, 1]` when fed white noise
from `[−1, 1]`; (2) one phase step from `[0, 1)` lands in `[0, 1)` for any
harmonic index, `rpm ≥ 0`, bounded jitter and positive sample rate;
(3) hence over any sample sequence of such inputs the phase accumulator,
starting at 0 ≤ phase < 1, is in `[0, 1)` after every sample. -/
theorem worklet_phase_invariant :
    (∀ x white : ℚ, |x| ≤ 1 → |white| ≤ 1 →
      |updateSlowRandom x white| ≤ 1) ∧
    (∀ (sr rpm jitter : ℚ) (h : ℕ) (phase : ℚ),
      0 < sr → 0 ≤ rpm → |jitter| ≤ 1 → 0 ≤ phase → phase < 1 →
      0 ≤ phaseStep sr rpm jitter h phase ∧
        phaseStep sr rpm jitter h phase < 1) ∧
    (∀ (sr : ℚ) (h : ℕ) (inputs : List (ℚ × ℚ)) (phase : ℚ),
      0 < sr → (∀ i ∈ inputs, 0 ≤ i.1 ∧ |i.2| ≤ 1) →
      0 ≤ phase → phase < 1 →
      0 ≤ inputs.foldl (fun ph i => phaseStep sr i.1 i.2 h ph) phase ∧
        inputs.foldl (fun ph i => phaseStep sr i.1 i.2 h ph) phase < 1) := by
  have hstep : ∀ (sr rpm jitter : ℚ) (h : ℕ) (phase : ℚ),
      0 < sr → 0 ≤ rpm → |jitter| ≤ 1 → 0 ≤ phase → phase < 1 →
      0 ≤ phaseStep sr rpm jitter h phase ∧
        phaseStep sr rpm jitter h phase < 1 := by
    intro sr rpm jitter h phase hsr hrpm hj h0 h1
    rw [abs_le] at hj
    have hjpos : 0 ≤ 1 + NOISE_FREQ * jitter := by
      unfold NOISE_FREQ
      linarith
    have hinc : 0 ≤ ((h : ℚ) * (rpm / 60) * (1 + NOISE_FREQ * jitter)) / sr :=
      div_nonneg
        (mul_nonneg
          (mul_nonneg (Nat.cast_nonneg h) (div_nonneg hrpm (by norm_num)))
          hjpos)
        (le_of_lt hsr)
    unfold phaseStep
    dsimp only
    split_ifs with hge
    · have hfr : phase + (h * (rpm / 60) * (1 + NOISE_FREQ * jitter)) / sr -
          ⌊phase + (h * (rpm / 60) * (1 + NOISE_FREQ * jitter)) / sr⌋ =
          Int.fract (phase + (h * (rpm / 60) * (1 + NOISE_FREQ * jitter)) / sr) :=
        rfl
      rw [hfr]
      exact ⟨Int.fract_nonneg _, Int.fract_lt_one _⟩
    · push_neg at hge
      constructor
      · linarith
      · exact hge
  refine ⟨?_, hstep, ?_⟩
  · intro x white hx hw
    rw [abs_le] at hx hw ⊢
    unfold updateSlowRandom SLOW_RANDOM_ALPHA
    constructor <;> linarith
  · intro sr h inputs
    induction inputs with
    | nil =>
        intro phase hsr _ h0 h1
        exact ⟨h0, h1⟩
    | cons i rest ih =>
        intro phase hsr hin h0 h1
        have hi := hin i (by simp)
        obtain ⟨hs0, hs1⟩ := hstep sr i.1 i.2 h phase hsr hi.1 hi.2 h0 h1
        simpa using ih (phaseStep sr i.1 i.2 h phase) hsr
          (fun j hj => hin j (List.mem_cons_of_mem i hj)) hs0 hs1

/-- Witness for C9: one phase step at 48 kHz, 3000 RPM, zero jitter,
harmonic 2, from phase 1/2 stays in `[0, 1)`. -/
theorem worklet_phase_invariant_witness :
    0 ≤ phaseStep 48000 3000 0 2 (1/2) ∧ phaseStep 48000 3000 0 2 (1/2) < 1 :=
  worklet_phase_invariant.2.1 48000 3000 0 2 (1/2)
    (by norm_num) (by norm_num) (by norm_num) (by norm_num) (by norm_num)

end EngineSim
